import Mathlib

/-!
Verification of `src/signal_processing.py` (`load_q_transform_audio_file`).

The Python function is a thin wrapper: it loads an audio segment with
`librosa.load`, computes a constant-Q transform with `librosa.cqt`, takes the
magnitude (`librosa.magphase(...)[0]`), raises it to the 4th power, and converts
to decibels with `librosa.core.amplitude_to_db(..., ref=np.amax)`, returning the
result.

Shallow embedding choices:
* Python floats are modelled as rationals (`ℚ`); the base-10 logarithm used
  inside the decibel conversion is an explicit parameter `log10 : ℚ → ℚ`
  (the numeric routine `np.log10`), with monotonicity assumed where a claim
  needs it.
* The external collaborators `librosa.load` and `librosa.cqt` are opaque
  parameters returning `Except` values (they can fail); the wrapper passes
  argument records to them, mirroring the Python keyword arguments.
* The complex-valued CQT matrix is a matrix over an abstract type `C` together
  with a magnitude function `cabs : C → ℚ` (the behaviour of
  `librosa.magphase`, whose first component is the elementwise absolute value).
* `librosa.core.amplitude_to_db` and `librosa.power_to_db` are embedded from
  librosa's implementation with its default parameters
  (`amin = 1e-5`, `top_db = 80.0`) and `ref = np.amax` as in the source call.
-/

/-- Arguments passed to the audio loader collaborator, mirroring the keyword
arguments of the `librosa.load` call on lines 35-37 of the source:
`librosa.load(audio_filepath, sr=None, mono=True, offset=start_time_s,
duration=duration_s)`. `sr = none` means "keep the native sample rate". -/
structure LoadArgs where
  path : String
  sr : Option ℕ
  mono : Bool
  offset : ℚ
  duration : ℚ
deriving Repr, DecidableEq

/-- Arguments passed to the constant-Q transform collaborator, mirroring the
keyword arguments of the `librosa.cqt` call on lines 38-40 of the source:
`librosa.cqt(data, sr=sample_rate, hop_length=1024, fmin=None, n_bins=96,
bins_per_octave=12)`. `fmin = none` means "auto-select the default minimum
frequency". -/
structure CqtArgs where
  sr : ℕ
  hop_length : ℕ
  fmin : Option ℚ
  n_bins : ℕ
  bins_per_octave : ℕ
deriving Repr, DecidableEq

/-- All scalar entries of a matrix (list of rows), flattened. -/
def entries (M : List (List ℚ)) : List ℚ := M.flatten

/-- Maximum of a list of rationals (`0` on the empty list, which `np.amax`
rejects; every use below is guarded by a nonemptiness hypothesis). -/
def listMax : List ℚ → ℚ
  | [] => 0
  | x :: xs => xs.foldl max x

/-- The `np.amax` reduction over a matrix: maximum of all entries. -/
def np_amax (M : List (List ℚ)) : ℚ := listMax (entries M)

/-- The shape of a matrix: the list of its row lengths. -/
def shape {α : Type} (M : List (List α)) : List ℕ := M.map (·.length)

/-- Embedded from librosa's `power_to_db(S, ref, amin, top_db)`:
`log_spec = 10*log10(maximum(amin, |S|)) - 10*log10(maximum(amin, |ref|))`,
then clipped from below at `log_spec.max() - top_db`.  The base-10 logarithm
routine is the explicit parameter `log10`. -/
def power_to_db (log10 : ℚ → ℚ) (ref amin top_db : ℚ)
    (S : List (List ℚ)) : List (List ℚ) :=
  let ref_value := |ref|
  let log_spec := S.map (·.map (fun p =>
    10 * log10 (max amin |p|) - 10 * log10 (max amin ref_value)))
  log_spec.map (·.map (fun x => max x (np_amax log_spec - top_db)))

/-- Embedded from librosa's `amplitude_to_db(S, ref=np.amax)` with librosa's
default `amin = 1e-5` and `top_db = 80.0` (line 42 of the source):
`magnitude = |S|`, `ref_value = np.amax(magnitude)`, then
`power_to_db(magnitude**2, ref=ref_value**2, amin=amin**2, top_db=top_db)`. -/
def amplitude_to_db_refmax (log10 : ℚ → ℚ) (S : List (List ℚ)) :
    List (List ℚ) :=
  let magnitude := S.map (·.map (fun x => |x|))
  let ref_value := np_amax magnitude
  let power := magnitude.map (·.map (fun m => m ^ 2))
  power_to_db log10 (ref_value ^ 2) ((1 / 100000 : ℚ) ^ 2) 80 power

/-- The magnitude component of `librosa.magphase`: elementwise absolute value
of the complex matrix, `cabs` being the magnitude function on the abstract
complex scalar type. -/
def magphase_mag {C : Type} (cabs : C → ℚ) (M : List (List C)) :
    List (List ℚ) :=
  M.map (·.map cabs)

/-- Embedded from `load_q_transform_audio_file` (lines 5-43 of
`src/signal_processing.py`).  The collaborators `load` (librosa.load),
`cqt` (librosa.cqt), `cabs` (the scalar magnitude used by librosa.magphase)
and `log10` (np.log10 inside the dB conversion) are explicit parameters.
Mirrors the body exactly: load, cqt, magnitude to the 4th power,
amplitude_to_db with `ref=np.amax`, and return of `CQTdB` (no further
processing; in particular no `cqt_lim` call appears in the code). -/
def load_q_transform_audio_file {C : Type}
    (load : LoadArgs → Except String (List ℚ × ℕ))
    (cqt : CqtArgs → List ℚ → Except String (List (List C)))
    (cabs : C → ℚ) (log10 : ℚ → ℚ)
    (audio_filepath : String) (start_time_s duration_s : ℚ)
    (sample_rate : ℕ := 48000) : Except String (List (List ℚ)) :=
  match load ⟨audio_filepath, none, true, start_time_s, duration_s⟩ with
  | .error e => .error e
  | .ok (data, _sr) =>
    match cqt ⟨sample_rate, 1024, none, 96, 12⟩ data with
    | .error e => .error e
    | .ok CQT =>
      let CQT_mag := (magphase_mag cabs CQT).map (·.map (fun m => m ^ 4))
      let CQTdB := amplitude_to_db_refmax log10 CQT_mag
      .ok CQTdB

/-- Observable filesystem effects of a call. -/
inductive FileEffect where
  | read (path : String)
  | write (path : String)
deriving Repr, DecidableEq

/-- Effect-instrumented version of `load_q_transform_audio_file`: the same
computation together with the list of filesystem effects it performs.  The
only effectful step in the Python body is `librosa.load`, which reads the
file at `audio_filepath`; every other step is pure in-memory computation. -/
def load_q_transform_audio_file_effects {C : Type}
    (load : LoadArgs → Except String (List ℚ × ℕ))
    (cqt : CqtArgs → List ℚ → Except String (List (List C)))
    (cabs : C → ℚ) (log10 : ℚ → ℚ)
    (audio_filepath : String) (start_time_s duration_s : ℚ)
    (sample_rate : ℕ := 48000) :
    Except String (List (List ℚ)) × List FileEffect :=
  let eff := [FileEffect.read audio_filepath]
  match load ⟨audio_filepath, none, true, start_time_s, duration_s⟩ with
  | .error e => (.error e, eff)
  | .ok (data, _sr) =>
    match cqt ⟨sample_rate, 1024, none, 96, 12⟩ data with
    | .error e => (.error e, eff)
    | .ok CQT =>
      (.ok (amplitude_to_db_refmax log10
        ((magphase_mag cabs CQT).map (·.map (fun m => m ^ 4)))), eff)

/-- One decibel entry of `amplitude_to_db_refmax`: the value assigned to a
power entry `p` relative to the reference magnitude `r`, before the `top_db`
clipping (`amin² = (1e-5)² = 1e-10`). -/
def db_entry (L : ℚ → ℚ) (r p : ℚ) : ℚ :=
  10 * L (max ((1 / 100000 : ℚ) ^ 2) |p|) -
  10 * L (max ((1 / 100000 : ℚ) ^ 2) |r ^ 2|)

/-- Action of `amplitude_to_db_refmax` on the flattened entry list of its
argument matrix (proved equal to it in `entries_amplitude_to_db`). -/
def db_flat (L : ℚ → ℚ) (l : List ℚ) : List ℚ :=
  let r := listMax (l.map (fun x => |x|))
  let ls := ((l.map (fun x => |x|)).map (fun m => m ^ 2)).map
    (fun p => db_entry L r p)
  ls.map (fun x => max x (listMax ls - 80))

/-- A transform collaborator honouring the documented librosa.cqt shape
contract: `n_bins` rows and `1 + len//hop_length` frames per row. -/
def cqtShaped : CqtArgs → List ℚ → Except String (List (List ℚ)) :=
  fun a x => .ok (List.replicate a.n_bins
    (List.replicate (x.length / a.hop_length + 1) 1))

section ListLemmas

/-- Every element of `x :: xs` is bounded by `xs.foldl max x`. -/
lemma le_foldl_max (xs : List ℚ) : ∀ (x : ℚ), ∀ a ∈ x :: xs, a ≤ xs.foldl max x := by
  induction xs with
  | nil => intro x a ha; simp at ha; simp [ha]
  | cons y ys ih =>
    intro x a ha
    simp only [List.foldl_cons]
    have hb : max x y ≤ ys.foldl max (max x y) :=
      ih (max x y) (max x y) (List.mem_cons_self _ _)
    rcases List.mem_cons.1 ha with h | h
    · subst h; exact le_trans (le_max_left a y) hb
    · rcases List.mem_cons.1 h with h' | h'
      · subst h'; exact le_trans (le_max_right x a) hb
      · exact ih (max x y) a (List.mem_cons_of_mem _ h')

/-- `xs.foldl max x` is attained in `x :: xs`. -/
lemma foldl_max_mem (xs : List ℚ) : ∀ (x : ℚ), xs.foldl max x ∈ x :: xs := by
  induction xs with
  | nil => intro x; simp
  | cons y ys ih =>
    intro x
    simp only [List.foldl_cons]
    rcases List.mem_cons.1 (ih (max x y)) with h | h
    · rw [h]
      rcases max_choice x y with h' | h'
      · rw [h']; exact List.mem_cons_self _ _
      · rw [h']; exact List.mem_cons_of_mem _ (List.mem_cons_self _ _)
    · exact List.mem_cons_of_mem _ (List.mem_cons_of_mem _ h)

/-- On a nonempty list, `listMax` is an upper bound. -/
lemma le_listMax (l : List ℚ) (a : ℚ) (ha : a ∈ l) : a ≤ listMax l := by
  cases l with
  | nil => simp at ha
  | cons x xs => exact le_foldl_max xs x a ha

/-- On a nonempty list, `listMax` is attained. -/
lemma listMax_mem (l : List ℚ) (hl : l ≠ []) : listMax l ∈ l := by
  cases l with
  | nil => exact absurd rfl hl
  | cons x xs => exact foldl_max_mem xs x

/-- Flattening commutes with elementwise mapping of a matrix. -/
lemma entries_map (f : ℚ → ℚ) (M : List (List ℚ)) :
    entries (M.map (·.map f)) = (entries M).map f := by
  induction M with
  | nil => rfl
  | cons r M ih => simp [entries, List.flatten_cons, ih, List.map_append] at *

/-- Flattening a matrix obtained by mapping rows of an arbitrary matrix. -/
lemma entries_map_of (C : Type) (f : C → ℚ) (M : List (List C)) :
    entries (M.map (·.map f)) = M.flatten.map f := by
  induction M with
  | nil => rfl
  | cons r M ih => simp [entries, List.flatten_cons, ih, List.map_append] at *

/-- Elementwise maps preserve the shape of a matrix. -/
lemma shape_map {α β : Type} (f : α → β) (M : List (List α)) :
    shape (M.map (·.map f)) = shape M := by
  simp [shape, List.map_map, Function.comp]

/-- Matrices of equal shape have equally many rows. -/
lemma length_eq_of_shape_eq {α β : Type} {M : List (List α)}
    {N : List (List β)} (h : shape M = shape N) : M.length = N.length := by
  have h' := congrArg List.length h
  simpa [shape] using h'

/-- The length of a row is an entry of the shape. -/
lemma row_length_mem_shape {α : Type} {M : List (List α)} {row : List α}
    (h : row ∈ M) : row.length ∈ shape M :=
  List.mem_map_of_mem _ h

/-- `power_to_db` preserves the shape of its input. -/
lemma shape_power_to_db (L : ℚ → ℚ) (ref amin top_db : ℚ)
    (S : List (List ℚ)) : shape (power_to_db L ref amin top_db S) = shape S := by
  simp only [power_to_db]
  rw [shape_map, shape_map]

/-- `amplitude_to_db_refmax` preserves the shape of its input. -/
lemma shape_amplitude_to_db (L : ℚ → ℚ) (S : List (List ℚ)) :
    shape (amplitude_to_db_refmax L S) = shape S := by
  simp only [amplitude_to_db_refmax]
  rw [shape_power_to_db, shape_map, shape_map]

/-- The flattened entries of `amplitude_to_db_refmax` are `db_flat` of the
flattened entries of the input. -/
lemma entries_amplitude_to_db (L : ℚ → ℚ) (S : List (List ℚ)) :
    entries (amplitude_to_db_refmax L S) = db_flat L (entries S) := by
  simp only [amplitude_to_db_refmax, power_to_db, db_flat, db_entry, np_amax,
    entries_map]

/-- `db_flat` preserves list length. -/
lemma db_flat_length (L : ℚ → ℚ) (l : List ℚ) :
    (db_flat L l).length = l.length := by
  simp [db_flat]

/-- A nonempty `db_flat` output comes from a nonempty input. -/
lemma db_flat_ne_nil (L : ℚ → ℚ) (l : List ℚ) (h : db_flat L l ≠ []) :
    l ≠ [] := by
  intro h0
  apply h
  rw [h0]
  rfl

/-- Core property of the embedded decibel conversion with `ref = np.amax`,
`amin = 1e-5` and `top_db = 80`: on a nonempty input and for a monotone
logarithm routine, every output value lies in `[-80, 0]` and the value `0` is
attained (at the entry realising the reference maximum). -/
lemma db_flat_bounds (L : ℚ → ℚ) (hL : Monotone L) (l : List ℚ)
    (hl : l ≠ []) :
    (∀ x ∈ db_flat L l, -80 ≤ x ∧ x ≤ 0) ∧ 0 ∈ db_flat L l := by
  set ml := l.map (fun x => |x|) with hml
  set r := listMax ml with hr
  set pw := ml.map (fun m => m ^ 2) with hpw
  set ls := pw.map (fun p => db_entry L r p) with hls
  have hdb : db_flat L l = ls.map (fun x => max x (listMax ls - 80)) := rfl
  have hmlne : ml ≠ [] := by
    rw [hml]
    simp [hl]
  have habs : ∀ q ∈ ml, 0 ≤ q := by
    rw [hml]
    intro q hq
    rcases List.mem_map.1 hq with ⟨y, _, rfl⟩
    exact abs_nonneg y
  have hr_mem : r ∈ ml := by
    rw [hr]
    exact listMax_mem ml hmlne
  have hub : ∀ q ∈ ml, q ≤ r := fun q hq => hr ▸ le_listMax ml q hq
  have hr_nonneg : 0 ≤ r := habs r hr_mem
  have hls_le : ∀ z ∈ ls, z ≤ 0 := by
    rw [hls, hpw]
    intro z hz
    rcases List.mem_map.1 hz with ⟨p, hp, rfl⟩
    rcases List.mem_map.1 hp with ⟨q, hq, rfl⟩
    have h1 : |q ^ 2| ≤ |r ^ 2| := by
      rw [abs_of_nonneg (sq_nonneg q), abs_of_nonneg (sq_nonneg r)]
      exact pow_le_pow_left₀ (habs q hq) (hub q hq) 2
    have h2 : max ((1 / 100000 : ℚ) ^ 2) |q ^ 2| ≤
        max ((1 / 100000 : ℚ) ^ 2) |r ^ 2| := max_le_max le_rfl h1
    have h3 := hL h2
    simp only [db_entry]
    linarith
  have h0 : (0 : ℚ) ∈ ls := by
    rw [hls]
    have hz : db_entry L r (r ^ 2) = 0 := by simp [db_entry]
    rw [← hz]
    exact List.mem_map_of_mem _ (by rw [hpw]; exact List.mem_map_of_mem _ hr_mem)
  have hlsne : ls ≠ [] := by
    intro hempty
    rw [hempty] at h0
    simp at h0
  have hm : listMax ls = 0 :=
    le_antisymm (hls_le _ (listMax_mem ls hlsne)) (le_listMax ls 0 h0)
  constructor
  · rw [hdb]
    intro x hx
    rcases List.mem_map.1 hx with ⟨z, hz, rfl⟩
    rw [hm]
    constructor
    · have h80 : (-80 : ℚ) = 0 - 80 := by norm_num
      rw [h80]
      exact le_max_right z (0 - 80)
    · exact max_le (hls_le z hz) (by norm_num)
  · rw [hdb]
    have hz : max (0 : ℚ) (listMax ls - 80) = 0 := by
      rw [hm]
      exact max_eq_left (by norm_num)
    rw [← hz]
    exact List.mem_map_of_mem _ h0

/-- A successful run returns the decibel conversion of the 4th power of the
magnitude of some transform output. -/
lemma run_ok_elim {C : Type}
    (load : LoadArgs → Except String (List ℚ × ℕ))
    (cqt : CqtArgs → List ℚ → Except String (List (List C)))
    (cabs : C → ℚ) (log10 : ℚ → ℚ)
    (audio_filepath : String) (start_time_s duration_s : ℚ) (sample_rate : ℕ)
    (R : List (List ℚ))
    (hR : load_q_transform_audio_file load cqt cabs log10
      audio_filepath start_time_s duration_s sample_rate = Except.ok R) :
    ∃ M : List (List C),
      R = amplitude_to_db_refmax log10
        ((magphase_mag cabs M).map (·.map (fun m => m ^ 4))) := by
  unfold load_q_transform_audio_file at hR
  cases hl : load ⟨audio_filepath, none, true, start_time_s, duration_s⟩ with
  | error e => rw [hl] at hR; simp at hR
  | ok p =>
    obtain ⟨data, nsr⟩ := p
    rw [hl] at hR
    cases hc : cqt ⟨sample_rate, 1024, none, 96, 12⟩ data with
    | error e => simp [hc] at hR
    | ok M =>
      simp only [hc] at hR
      refine ⟨M, ?_⟩
      simp only [Except.ok.injEq] at hR
      exact hR.symm

end ListLemmas

section StructuralTheorems

/-- C3: the audio segment is loaded with `sr = none` (the asset's native sample
rate, no resampling at load time), `mono = true` (mixed down to one channel),
offset `start_time_s` and duration `duration_s`: the result of the whole
function depends on the loader collaborator only through its value at exactly
that argument record. -/
theorem load_invoked_native_mono_offset_duration {C : Type}
    (load₁ load₂ : LoadArgs → Except String (List ℚ × ℕ))
    (cqt : CqtArgs → List ℚ → Except String (List (List C)))
    (cabs : C → ℚ) (log10 : ℚ → ℚ)
    (audio_filepath : String) (start_time_s duration_s : ℚ) (sample_rate : ℕ)
    (h : load₁ ⟨audio_filepath, none, true, start_time_s, duration_s⟩ =
         load₂ ⟨audio_filepath, none, true, start_time_s, duration_s⟩) :
    load_q_transform_audio_file load₁ cqt cabs log10
      audio_filepath start_time_s duration_s sample_rate =
    load_q_transform_audio_file load₂ cqt cabs log10
      audio_filepath start_time_s duration_s sample_rate := by
  unfold load_q_transform_audio_file
  rw [h]

/-- C2: the constant-Q transform is invoked on the loaded (un-resampled)
samples with exactly `sr = sample_rate` (the caller-supplied rate passed
through as the assumed rate), `hop_length = 1024`, `fmin = none` (the
collaborator's default minimum frequency), `n_bins = 96` and
`bins_per_octave = 12`: the result depends on the transform collaborator only
through its value at that argument record applied to the loader's output. -/
theorem cqt_invoked_with_fixed_params {C : Type}
    (load : LoadArgs → Except String (List ℚ × ℕ))
    (cqt₁ cqt₂ : CqtArgs → List ℚ → Except String (List (List C)))
    (cabs : C → ℚ) (log10 : ℚ → ℚ)
    (audio_filepath : String) (start_time_s duration_s : ℚ) (sample_rate : ℕ)
    (h : ∀ data nsr,
      load ⟨audio_filepath, none, true, start_time_s, duration_s⟩ =
        Except.ok (data, nsr) →
      cqt₁ ⟨sample_rate, 1024, none, 96, 12⟩ data =
        cqt₂ ⟨sample_rate, 1024, none, 96, 12⟩ data) :
    load_q_transform_audio_file load cqt₁ cabs log10
      audio_filepath start_time_s duration_s sample_rate =
    load_q_transform_audio_file load cqt₂ cabs log10
      audio_filepath start_time_s duration_s sample_rate := by
  unfold load_q_transform_audio_file
  cases hl : load ⟨audio_filepath, none, true, start_time_s, duration_s⟩ with
  | error e => rfl
  | ok p =>
    obtain ⟨data, nsr⟩ := p
    simp only [h data nsr hl]

/-- C7: the function is deterministic; two calls with identical arguments (and
the same collaborator behaviour, i.e. an unchanged file) return identical
matrices. -/
theorem load_q_transform_deterministic {C : Type}
    (load : LoadArgs → Except String (List ℚ × ℕ))
    (cqt : CqtArgs → List ℚ → Except String (List (List C)))
    (cabs : C → ℚ) (log10 : ℚ → ℚ)
    (audio_filepath : String) (start_time_s duration_s : ℚ) (sample_rate : ℕ) :
    load_q_transform_audio_file load cqt cabs log10
      audio_filepath start_time_s duration_s sample_rate =
    load_q_transform_audio_file load cqt cabs log10
      audio_filepath start_time_s duration_s sample_rate := rfl

/-- C8: when the loader fails, or the loader succeeds and the transform fails,
the very error value produced by the failing collaborator is returned to the
caller unchanged — no retry, no recovery, no wrapping, no fallback. -/
theorem collaborator_failure_propagates {C : Type}
    (load : LoadArgs → Except String (List ℚ × ℕ))
    (cqt : CqtArgs → List ℚ → Except String (List (List C)))
    (cabs : C → ℚ) (log10 : ℚ → ℚ)
    (audio_filepath : String) (start_time_s duration_s : ℚ) (sample_rate : ℕ)
    (e : String)
    (h : load ⟨audio_filepath, none, true, start_time_s, duration_s⟩ =
           Except.error e ∨
         ∃ data nsr,
           load ⟨audio_filepath, none, true, start_time_s, duration_s⟩ =
             Except.ok (data, nsr) ∧
           cqt ⟨sample_rate, 1024, none, 96, 12⟩ data = Except.error e) :
    load_q_transform_audio_file load cqt cabs log10
      audio_filepath start_time_s duration_s sample_rate = Except.error e := by
  unfold load_q_transform_audio_file
  rcases h with h | ⟨data, nsr, h1, h2⟩
  · simp only [h]
  · simp only [h1, h2]

/-- C9: the only filesystem effect of a call is a single read of
`audio_filepath` (performed by the loader); in particular no write effect
occurs, and the instrumented run returns exactly the value of the pure
function — the returned matrix is the only outward result. -/
theorem only_filesystem_effect_is_read {C : Type}
    (load : LoadArgs → Except String (List ℚ × ℕ))
    (cqt : CqtArgs → List ℚ → Except String (List (List C)))
    (cabs : C → ℚ) (log10 : ℚ → ℚ)
    (audio_filepath : String) (start_time_s duration_s : ℚ) (sample_rate : ℕ) :
    (load_q_transform_audio_file_effects load cqt cabs log10
        audio_filepath start_time_s duration_s sample_rate).2 =
      [FileEffect.read audio_filepath] ∧
    (∀ p, FileEffect.write p ∉
      (load_q_transform_audio_file_effects load cqt cabs log10
        audio_filepath start_time_s duration_s sample_rate).2) ∧
    (load_q_transform_audio_file_effects load cqt cabs log10
        audio_filepath start_time_s duration_s sample_rate).1 =
      load_q_transform_audio_file load cqt cabs log10
        audio_filepath start_time_s duration_s sample_rate := by
  unfold load_q_transform_audio_file_effects load_q_transform_audio_file
  cases hl : load ⟨audio_filepath, none, true, start_time_s, duration_s⟩ with
  | error e => exact ⟨by simp, by simp, by simp⟩
  | ok p =>
    obtain ⟨data, nsr⟩ := p
    cases hc : cqt ⟨sample_rate, 1024, none, 96, 12⟩ data with
    | error e => exact ⟨by simp [hc], by simp [hc], by simp [hc]⟩
    | ok M => exact ⟨by simp [hc], by simp [hc], by simp [hc]⟩

/-- C4: on a successful run, the returned matrix is the decibel conversion of
the magnitude component of the complex transform output raised elementwise to
the 4th power — magnitude first, then the 4th power, then dB. -/
theorem magnitude_fourth_power_before_db {C : Type}
    (load : LoadArgs → Except String (List ℚ × ℕ))
    (cqt : CqtArgs → List ℚ → Except String (List (List C)))
    (cabs : C → ℚ) (log10 : ℚ → ℚ)
    (audio_filepath : String) (start_time_s duration_s : ℚ) (sample_rate : ℕ)
    (data : List ℚ) (nsr : ℕ) (M : List (List C))
    (hl : load ⟨audio_filepath, none, true, start_time_s, duration_s⟩ =
      Except.ok (data, nsr))
    (hc : cqt ⟨sample_rate, 1024, none, 96, 12⟩ data = Except.ok M) :
    load_q_transform_audio_file load cqt cabs log10
      audio_filepath start_time_s duration_s sample_rate =
    Except.ok (amplitude_to_db_refmax log10
      ((magphase_mag cabs M).map (·.map (fun m => m ^ 4)))) := by
  unfold load_q_transform_audio_file
  simp only [hl, hc]

/-- C1 (evidence): the code returns the `amplitude_to_db` output directly; on a
concrete run whose transform matrix is `[[4], [2]]` (magnitude function `id`,
logarithm routine `id`) the function returns `[[0], [-80]]`, i.e. exactly the
decibel matrix produced by `amplitude_to_db` with no subsequent `cqt_lim`
range-limiting step (no such call exists in the function body). -/
theorem load_q_transform_returns_unlimited_db :
    load_q_transform_audio_file (fun _ => Except.ok ([1], 1))
      (fun _ _ => Except.ok [[(4 : ℚ)], [2]]) id id "song.wav" 0 1 48000 =
    Except.ok [[(0 : ℚ)], [-80]] := by
  unfold load_q_transform_audio_file
  norm_num [magphase_mag, amplitude_to_db_refmax, power_to_db, np_amax, entries,
    listMax]

end StructuralTheorems

section ValueTheorems

/-- C5: on a successful call whose returned matrix has at least one entry, the
decibel conversion references the matrix maximum (`ref=np.amax`), so every
entry of the returned matrix is ≤ 0 and the maximum value 0 is attained. -/
theorem returned_db_matrix_max_zero {C : Type}
    (load : LoadArgs → Except String (List ℚ × ℕ))
    (cqt : CqtArgs → List ℚ → Except String (List (List C)))
    (cabs : C → ℚ) (log10 : ℚ → ℚ)
    (audio_filepath : String) (start_time_s duration_s : ℚ) (sample_rate : ℕ)
    (R : List (List ℚ)) (hL : Monotone log10)
    (hR : load_q_transform_audio_file load cqt cabs log10
      audio_filepath start_time_s duration_s sample_rate = Except.ok R)
    (hne : entries R ≠ []) :
    (∀ x ∈ entries R, x ≤ 0) ∧ 0 ∈ entries R := by
  obtain ⟨M, rfl⟩ := run_ok_elim load cqt cabs log10 audio_filepath
    start_time_s duration_s sample_rate R hR
  rw [entries_amplitude_to_db] at hne ⊢
  have hne' := db_flat_ne_nil _ _ hne
  have h := db_flat_bounds log10 hL _ hne'
  exact ⟨fun x hx => (h.1 x hx).2, h.2⟩

/-- Witness for `returned_db_matrix_max_zero`: a concrete run returning
`[[0], [-80]]`, whose entries are all ≤ 0 with 0 attained. -/
theorem returned_db_matrix_max_zero_witness :
    (-80 : ℚ) ≤ 0 ∧ (0 : ℚ) ∈ entries [[(0 : ℚ)], [-80]] := by
  have h := returned_db_matrix_max_zero (fun _ => Except.ok ([1], 1))
    (fun _ _ => Except.ok [[(9 : ℚ)], [3]]) id id "z.wav" 0 1 48000
    [[(0 : ℚ)], [-80]] monotone_id
    (by
      unfold load_q_transform_audio_file
      norm_num [magphase_mag, amplitude_to_db_refmax, power_to_db, np_amax,
        entries, listMax])
    (by decide)
  exact ⟨h.1 (-80) (by decide), h.2⟩

/-- C10: on a successful call whose returned matrix has at least one entry,
the default dynamic-range cap `top_db = 80` of the decibel conversion bounds
the result: every entry is at least the maximum entry minus 80, and with the
max-referenced conversion all values lie in the interval `[-80, 0]`. -/
theorem returned_db_matrix_bounded_by_top_db {C : Type}
    (load : LoadArgs → Except String (List ℚ × ℕ))
    (cqt : CqtArgs → List ℚ → Except String (List (List C)))
    (cabs : C → ℚ) (log10 : ℚ → ℚ)
    (audio_filepath : String) (start_time_s duration_s : ℚ) (sample_rate : ℕ)
    (R : List (List ℚ)) (hL : Monotone log10)
    (hR : load_q_transform_audio_file load cqt cabs log10
      audio_filepath start_time_s duration_s sample_rate = Except.ok R)
    (hne : entries R ≠ []) :
    ∀ x ∈ entries R, np_amax R - 80 ≤ x ∧ -80 ≤ x ∧ x ≤ 0 := by
  obtain ⟨M, rfl⟩ := run_ok_elim load cqt cabs log10 audio_filepath
    start_time_s duration_s sample_rate R hR
  set S := (magphase_mag cabs M).map (·.map (fun m => m ^ 4)) with hS
  have hent := entries_amplitude_to_db log10 S
  have hdne : db_flat log10 (entries S) ≠ [] := by
    rw [← hent]
    exact hne
  have h := db_flat_bounds log10 hL (entries S) (db_flat_ne_nil _ _ hdne)
  have hmax : np_amax (amplitude_to_db_refmax log10 S) = 0 := by
    unfold np_amax
    rw [hent]
    exact le_antisymm (h.1 _ (listMax_mem _ hdne)).2 (le_listMax _ 0 h.2)
  intro x hx
  rw [hent] at hx
  rcases h.1 x hx with ⟨h80, h0⟩
  refine ⟨?_, h80, h0⟩
  rw [hmax]
  linarith

/-- Witness for `returned_db_matrix_bounded_by_top_db`: a concrete run
returning `[[0], [-80]]`, checked at the entry `-80`. -/
theorem returned_db_matrix_bounded_by_top_db_witness :
    np_amax [[(0 : ℚ)], [-80]] - 80 ≤ -80 ∧ (-80 : ℚ) ≤ -80 ∧ (-80 : ℚ) ≤ 0 := by
  have h := returned_db_matrix_bounded_by_top_db (fun _ => Except.ok ([1], 1))
    (fun _ _ => Except.ok [[(2 : ℚ)], [1]]) id id "v.wav" 0 1 48000
    [[(0 : ℚ)], [-80]] monotone_id
    (by
      unfold load_q_transform_audio_file
      norm_num [magphase_mag, amplitude_to_db_refmax, power_to_db, np_amax,
        entries, listMax])
    (by decide)
  exact h (-80) (by decide)

/-- C6: if the loader returns `floor(duration_s * nsr)` samples (segment fully
inside the asset) and the transform collaborator honours the documented shape
contract (`n_bins` rows, `1 + len//hop_length` frames), then the returned
matrix has exactly 96 rows and every row has exactly
`floor(duration_s * nsr / 1024) + 1` columns. -/
theorem returned_matrix_shape {C : Type}
    (load : LoadArgs → Except String (List ℚ × ℕ))
    (cqt : CqtArgs → List ℚ → Except String (List (List C)))
    (cabs : C → ℚ) (log10 : ℚ → ℚ)
    (audio_filepath : String) (start_time_s duration_s : ℚ) (sample_rate : ℕ)
    (data : List ℚ) (nsr : ℕ) (R : List (List ℚ))
    (hload : load ⟨audio_filepath, none, true, start_time_s, duration_s⟩ =
      Except.ok (data, nsr))
    (hlen : data.length = ⌊duration_s * (nsr : ℚ)⌋₊)
    (hcqt : ∀ (a : CqtArgs) (x : List ℚ) (M : List (List C)),
      cqt a x = Except.ok M →
      M.length = a.n_bins ∧ ∀ row ∈ M, row.length = x.length / a.hop_length + 1)
    (hR : load_q_transform_audio_file load cqt cabs log10
      audio_filepath start_time_s duration_s sample_rate = Except.ok R) :
    R.length = 96 ∧
    ∀ row ∈ R, row.length = ⌊duration_s * (nsr : ℚ) / 1024⌋₊ + 1 := by
  unfold load_q_transform_audio_file at hR
  rw [hload] at hR
  cases hc : cqt ⟨sample_rate, 1024, none, 96, 12⟩ data with
  | error e => simp [hc] at hR
  | ok M =>
    simp only [hc, Except.ok.injEq] at hR
    obtain ⟨hlenM, hrowM⟩ := hcqt _ _ _ hc
    subst hR
    have hsh : shape (amplitude_to_db_refmax log10
        ((magphase_mag cabs M).map (·.map (fun m => m ^ 4)))) = shape M := by
      rw [shape_amplitude_to_db, shape_map]
      unfold magphase_mag
      rw [shape_map]
    constructor
    · exact (length_eq_of_shape_eq hsh).trans hlenM
    · intro row hrow
      have hmem : row.length ∈ shape M := hsh ▸ row_length_mem_shape hrow
      rcases List.mem_map.1 hmem with ⟨row', hrow', hlen'⟩
      rw [← hlen', hrowM row' hrow', hlen, Nat.floor_div_ofNat]

/-- Shape contract of the collaborator `cqtShaped`. -/
lemma cqtShaped_contract (a : CqtArgs) (x : List ℚ) (M : List (List ℚ))
    (h : cqtShaped a x = Except.ok M) :
    M.length = a.n_bins ∧ ∀ row ∈ M, row.length = x.length / a.hop_length + 1 := by
  simp only [cqtShaped, Except.ok.injEq] at h
  subst h
  constructor
  · simp
  · intro row hrow
    rw [List.eq_of_mem_replicate hrow]
    simp

/-- Witness for `returned_matrix_shape`: a 2-sample segment at native rate 1
(so `floor(2*1) = 2` samples) yields a 96 × 1 matrix. -/
theorem returned_matrix_shape_witness :
    (List.replicate 96 [(0 : ℚ)]).length = 96 ∧
    [(0 : ℚ)].length = ⌊(2 : ℚ) * ((1 : ℕ) : ℚ) / 1024⌋₊ + 1 := by
  have h := returned_matrix_shape (fun _ => Except.ok ([1, 1], 1)) cqtShaped
    id id "s.wav" 0 2 48000 [1, 1] 1 (List.replicate 96 [(0 : ℚ)])
    rfl (by norm_num) cqtShaped_contract
    (by
      unfold load_q_transform_audio_file
      norm_num [cqtShaped, magphase_mag, amplitude_to_db_refmax, power_to_db,
        np_amax, entries, listMax, List.replicate])
  exact ⟨h.1, h.2 [(0 : ℚ)] (by simp)⟩

/-- Witness for `cqt_invoked_with_fixed_params` at a concrete instantiation
(the two transform collaborators coincide). -/
theorem cqt_invoked_with_fixed_params_witness :
    load_q_transform_audio_file (fun _ => Except.ok ([1], 1))
      (fun _ _ => Except.ok [[(1 : ℚ)]]) id id "w.wav" 0 1 48000 =
    load_q_transform_audio_file (fun _ => Except.ok ([1], 1))
      (fun _ _ => Except.ok [[(1 : ℚ)]]) id id "w.wav" 0 1 48000 :=
  cqt_invoked_with_fixed_params (fun _ => Except.ok ([1], 1))
    (fun _ _ => Except.ok [[(1 : ℚ)]]) (fun _ _ => Except.ok [[(1 : ℚ)]])
    id id "w.wav" 0 1 48000 (fun _ _ _ => rfl)

/-- Witness for `load_invoked_native_mono_offset_duration` at a concrete
instantiation (the two loader collaborators coincide). -/
theorem load_invoked_native_mono_offset_duration_witness :
    load_q_transform_audio_file (fun _ => Except.ok ([2], 44100))
      (fun _ _ => Except.ok [[(1 : ℚ)]]) id id "x.wav" 1 2 22050 =
    load_q_transform_audio_file (fun _ => Except.ok ([2], 44100))
      (fun _ _ => Except.ok [[(1 : ℚ)]]) id id "x.wav" 1 2 22050 :=
  load_invoked_native_mono_offset_duration (fun _ => Except.ok ([2], 44100))
    (fun _ => Except.ok ([2], 44100)) (fun _ _ => Except.ok [[(1 : ℚ)]])
    id id "x.wav" 1 2 22050 rfl

/-- Witness for `magnitude_fourth_power_before_db` at a concrete run. -/
theorem magnitude_fourth_power_before_db_witness :
    load_q_transform_audio_file (fun _ => Except.ok ([3], 8000))
      (fun _ _ => Except.ok [[(2 : ℚ)]]) id id "y.wav" 0 3 48000 =
    Except.ok (amplitude_to_db_refmax id
      ((magphase_mag id [[(2 : ℚ)]]).map (·.map (fun m => m ^ 4)))) :=
  magnitude_fourth_power_before_db (fun _ => Except.ok ([3], 8000))
    (fun _ _ => Except.ok [[(2 : ℚ)]]) id id "y.wav" 0 3 48000
    [3] 8000 [[(2 : ℚ)]] rfl rfl

/-- Witness for `collaborator_failure_propagates`: a loader failure surfaces
verbatim. -/
theorem collaborator_failure_propagates_witness :
    load_q_transform_audio_file (fun _ => Except.error "decode error")
      (fun _ _ => Except.ok [[(1 : ℚ)]]) id id "bad.wav" 0 1 48000 =
    Except.error "decode error" :=
  collaborator_failure_propagates (fun _ => Except.error "decode error")
    (fun _ _ => Except.ok [[(1 : ℚ)]]) id id "bad.wav" 0 1 48000
    "decode error" (Or.inl rfl)

end ValueTheorems
